import Mathlib

/-!
Verification of the real-time event/session aggregation layer of the
gastown-frontend dashboard (src/api/index.js): the Process Runner
(runGt), the Output Interpreter (parseJsonOutput), the Event Log Tailer
(watchEvents / lastEventCount), the Broadcast Hub (clients / broadcast),
and the Session Multiplexer (peekStreams / the peek WebSocket handlers).

Each JavaScript handler is embedded as a pure Lean function on an
explicit state.  JavaScript library primitives that are outside the
repository (JSON.parse, the promisified exec) enter as parameters or as
an outcome datatype at their interface.  Ghost fields (spawnLog,
killLog, msgLog, nextProc) record the externally visible effects
(process spawns, kills, WebSocket sends) that the JavaScript performs
imperatively.
-/

namespace Gastown

/-! ## Process Runner: runGt (src/api/index.js lines 23-30)

`execAsync` is Node's promisified `child_process.exec`.  It resolves
with `{stdout, stderr}` exactly when the command exits with status 0,
and rejects with an Error (carrying a human-readable `message`, and
`stderr` when output was captured) on non-zero exit, spawn failure, or
timeout (on timeout the child is killed by exec itself).  We model the
possible outcomes of one invocation at this interface. -/

inductive ExecOutcome where
  /-- The command exited with status 0, having produced the given
  stdout and stderr. -/
  | ok (stdout stderr : String)
  /-- The command exited with non-zero status; exec rejects with a
  message and the captured stderr. -/
  | nonZeroExit (message : String) (stderr : String)
  /-- The process could not be spawned; the rejection carries no
  captured stderr. -/
  | spawnFailure (message : String)
  /-- The timeout elapsed; exec kills the child and rejects with a
  message and whatever stderr was captured before the kill. -/
  | timeout (message : String) (stderr : String)
deriving DecidableEq, Repr

/-- The object `runGt` returns.  Absent JavaScript fields are `none`:
the success branch returns `{ success: true, output: stdout, stderr }`
(no `error` field) and the catch branch returns
`{ success: false, error: error.message, stderr: error.stderr }`
(no `output` field). -/
structure GtResult where
  success : Bool
  output : Option String
  error : Option String
  stderr : Option String
deriving DecidableEq, Repr

/-- `runGt` (lines 23-30): await execAsync; on resolution return the
success shape, on rejection return the failure shape. -/
def runGt : ExecOutcome → GtResult
  | .ok out err => ⟨true, some out, none, some err⟩
  | .nonZeroExit m e => ⟨false, none, some m, some e⟩
  | .spawnFailure m => ⟨false, none, some m, none⟩
  | .timeout m e => ⟨false, none, some m, some e⟩

/-! ## JavaScript string builtins

`String.prototype.trim` and `String.prototype.split` are JS builtins;
we embed their documented semantics structurally on the string's
character list so that everything evaluates. -/

/-- The characters `trim` removes (the relevant JS WhiteSpace / line
terminators appearing in this system's text). -/
def isJsSpace (c : Char) : Bool :=
  c = ' ' || c = '\t' || c = '\n' || c = '\r'

/-- JS `s.trim()`: drop whitespace from both ends. -/
def jsTrim (s : List Char) : List Char :=
  ((s.dropWhile isJsSpace).reverse.dropWhile isJsSpace).reverse

/-- JS `s.split(sep)` for a single-character separator: the (possibly
empty) chunks between occurrences of `sep`; `"".split(sep)` is `[""]`. -/
def jsSplit (sep : Char) : List Char → List (List Char)
  | [] => [[]]
  | c :: cs =>
    let r := jsSplit sep cs
    if c = sep then [] :: r else (c :: r.headD []) :: r.tail

/-! ## Output Interpreter: parseJsonOutput (lines 43-49)

`JSON.parse` is a JavaScript builtin; it enters as a parameter
`parse : String → Option J` (`none` models a thrown parse error, which
the catch turns into `null`). -/

/-- `parseJsonOutput` (lines 43-49): parse the trimmed output,
returning null (`none`) on failure. -/
def parseJsonOutput {J : Type} (parse : String → Option J) (output : String) : Option J :=
  parse (String.mk (jsTrim output.data))

/-! ## Event Log Tailer: watchEvents (lines 1780-1802) -/

/-- The non-empty lines of the file content:
`content.trim().split('\n').filter(Boolean)` (line 1785). -/
def nonEmptyLines (content : String) : List String :=
  ((jsSplit '\n' (jsTrim content.data)).map String.mk).filter (fun l => l ≠ "")

/-- One invocation of `watchEvents` (lines 1781-1802).  `file` is the
current read of `TOWN_ROOT/.events.jsonl` (`none` when the read throws,
e.g. the file does not exist; the catch swallows the error).  The input
`lastEventCount` is the module-level counter; the result is the list of
events broadcast (in file order) and the updated counter.
`(lines.slice k).map(parse-or-null).filter(Boolean)` becomes
`((lines.drop k).map parse).reduceOption`. -/
def watchEvents {α : Type} (parse : String → Option α)
    (file : Option String) (lastEventCount : Nat) : List α × Nat :=
  match file with
  | none => ([], lastEventCount)
  | some content =>
    let lines := nonEmptyLines content
    if lastEventCount < lines.length then
      (((lines.drop lastEventCount).map parse).reduceOption, lines.length)
    else
      ([], lastEventCount)

/-- A whole lifetime of polls: fold `watchEvents` over the sequence of
file reads, collecting each poll's broadcast batch. -/
def pollRun {α : Type} (parse : String → Option α) :
    List (Option String) → Nat → List (List α) × Nat
  | [], k => ([], k)
  | f :: fs, k =>
    let r := watchEvents parse f k
    let rest := pollRun parse fs r.2
    (r.1 :: rest.1, rest.2)

/-- The append-only assumption between two reads of the log: the later
content's non-empty lines extend the earlier content's. -/
def LogExtends (c c2 : String) : Prop :=
  ∃ d, nonEmptyLines c2 = nonEmptyLines c ++ d

/-! ### Tailer lemmas -/

lemma getLastD_cons {α : Type} (a d : α) (l : List α) :
    (a :: l).getLastD d = l.getLastD a := by
  cases l <;> simp [List.getLastD]

/-- One poll under the append-only assumption: with the counter at the
previous line count, the poll emits exactly the parses of the appended
suffix, in order, and advances the counter to the new total. -/
lemma watchEvents_append {α : Type} (parse : String → Option α)
    (c c2 : String) (k : Nat) (d : List String)
    (hk : k = (nonEmptyLines c).length)
    (h2 : nonEmptyLines c2 = nonEmptyLines c ++ d) :
    watchEvents parse (some c2) k = (d.filterMap parse, (nonEmptyLines c2).length) := by
  subst hk
  rcases eq_or_ne d [] with rfl | hd
  · simp [watchEvents, h2]
  · have hlt : (nonEmptyLines c).length < (nonEmptyLines c2).length := by
      rw [h2, List.length_append]
      have : 0 < d.length := List.length_pos.mpr hd
      omega
    have hdrop : (nonEmptyLines c2).drop (nonEmptyLines c).length = d := by
      rw [h2, List.drop_left]
    simp only [watchEvents, if_pos hlt, hdrop]
    simp [List.reduceOption, List.filterMap_map]

/-- Lifetime of polls starting from content `c0` with the counter at
`c0`'s line count: along any append-only chain of reads, the
concatenation of all emitted batches is exactly the parse of the lines
appended after `c0`, and the counter ends at the final line count. -/
lemma pollRun_chain {α : Type} (parse : String → Option α) :
    ∀ (cs : List String) (c0 : String),
      List.Chain' LogExtends (c0 :: cs) →
      ∃ e, nonEmptyLines (cs.getLastD c0) = nonEmptyLines c0 ++ e
        ∧ (pollRun parse (cs.map some) (nonEmptyLines c0).length).1.flatten
            = e.filterMap parse
        ∧ (pollRun parse (cs.map some) (nonEmptyLines c0).length).2
            = (nonEmptyLines c0).length + e.length
  | [], c0, _ => ⟨[], by simp [pollRun, List.getLastD]⟩
  | c :: cs, c0, hchain => by
    have hext : LogExtends c0 c := (List.chain'_cons.mp hchain).1
    have htail : List.Chain' LogExtends (c :: cs) := (List.chain'_cons.mp hchain).2
    rcases hext with ⟨d, hd⟩
    rcases pollRun_chain parse cs c htail with ⟨e, he, hjoin, hcount⟩
    have hlen : (nonEmptyLines c).length = (nonEmptyLines c0).length + d.length := by
      rw [hd, List.length_append]
    refine ⟨d ++ e, ?_, ?_, ?_⟩
    · rw [getLastD_cons, he, hd, List.append_assoc]
    · simp only [List.map_cons, pollRun,
        watchEvents_append parse c0 c _ d rfl hd, List.flatten_cons]
      rw [hjoin, List.filterMap_append]
    · simp only [List.map_cons, pollRun,
        watchEvents_append parse c0 c _ d rfl hd]
      rw [hcount, hlen, List.length_append]
      omega

lemma nonEmptyLines_empty : nonEmptyLines "" = [] := by decide

/-- C1.  Tailer monotonicity: one poll after a batch of appends emits
exactly the appended records, in file order, skipping individually the
lines that fail to parse, and advances the counter to the new total;
and over the whole lifetime (counter initialized to 0, append-only
chain of reads) the concatenation of all emitted batches is exactly the
parse of the final file's lines — so no record is ever emitted twice
and no appended record is ever skipped. -/
theorem tailer_monotonicity {α : Type} (parse : String → Option α) :
    (∀ c c2 k d, k = (nonEmptyLines c).length →
        nonEmptyLines c2 = nonEmptyLines c ++ d →
        watchEvents parse (some c2) k = (d.filterMap parse, (nonEmptyLines c2).length))
    ∧ (∀ cs : List String, List.Chain' LogExtends ("" :: cs) →
        (pollRun parse (cs.map some) 0).1.flatten
            = (nonEmptyLines (cs.getLastD "")).filterMap parse
        ∧ (pollRun parse (cs.map some) 0).2 = (nonEmptyLines (cs.getLastD "")).length) := by
  constructor
  · exact fun c c2 k d hk h2 => watchEvents_append parse c c2 k d hk h2
  · intro cs hchain
    rcases pollRun_chain parse cs "" hchain with ⟨e, he, hjoin, hcount⟩
    rw [nonEmptyLines_empty] at he hjoin hcount
    simp only [List.nil_append] at he
    rw [he]
    simp only [List.length_nil] at hjoin hcount
    exact ⟨hjoin, by omega⟩

/-- C1 witness: a concrete poll (previous content one line, two lines
appended, one of which fails to parse) and a concrete one-poll
lifetime. -/
theorem tailer_monotonicity_witness :
    watchEvents String.toNat? (some "1\nbad\n2") 1
        = (["bad", "2"].filterMap String.toNat?, (nonEmptyLines "1\nbad\n2").length)
    ∧ ((pollRun String.toNat? (["3"].map some) 0).1.flatten
            = (nonEmptyLines (["3"].getLastD "")).filterMap String.toNat?
        ∧ (pollRun String.toNat? (["3"].map some) 0).2
            = (nonEmptyLines (["3"].getLastD "")).length) :=
  ⟨(tailer_monotonicity String.toNat?).1 "1" "1\nbad\n2" 1 ["bad", "2"]
      (by decide) (by decide),
   (tailer_monotonicity String.toNat?).2 ["3"]
      (List.chain'_cons.mpr ⟨⟨["3"], by decide⟩, List.chain'_singleton "3"⟩)⟩

/-- C8.  The tailer counter `lastEventCount` never decreases; it
changes only when the current non-empty line count strictly exceeds it
(and then becomes that count); a failed read (absent file) leaves it
untouched and emits nothing; and while the line count is at or below
the counter (e.g. after the file shrank) nothing is emitted and the
counter keeps its old value. -/
theorem tailer_counter_monotone {α : Type} (parse : String → Option α) :
    (∀ f k, k ≤ (watchEvents parse f k).2)
    ∧ (∀ f k, (watchEvents parse f k).2 ≠ k →
        ∃ c, f = some c ∧ k < (nonEmptyLines c).length
          ∧ (watchEvents parse f k).2 = (nonEmptyLines c).length)
    ∧ (∀ k, watchEvents parse none k = ([], k))
    ∧ (∀ c k, (nonEmptyLines c).length ≤ k →
        watchEvents parse (some c) k = ([], k)) := by
  refine ⟨fun f k => ?_, fun f k hne => ?_, fun k => rfl, fun c k hle => ?_⟩
  · match f with
    | none => exact le_refl k
    | some c =>
      simp only [watchEvents]
      split
      · omega
      · exact le_refl k
  · match f with
    | none => exact absurd rfl hne
    | some c =>
      refine ⟨c, rfl, ?_⟩
      by_cases h : k < (nonEmptyLines c).length
      · exact ⟨h, by simp [watchEvents, if_pos h]⟩
      · exact absurd (by simp [watchEvents, if_neg h]) hne
  · simp [watchEvents, Nat.not_lt.mpr hle]

/-- C8 witness: concrete instances of each conjunct (a growing file, an
absent file, and a shrunken file). -/
theorem tailer_counter_monotone_witness :
    1 ≤ (watchEvents String.toNat? (some "1\n2") 1).2
    ∧ (∃ c, some "1\n2" = some c ∧ 1 < (nonEmptyLines c).length
        ∧ (watchEvents String.toNat? (some "1\n2") 1).2 = (nonEmptyLines c).length)
    ∧ watchEvents String.toNat? none 7 = ([], 7)
    ∧ watchEvents String.toNat? (some "1") 5 = ([], 5) :=
  ⟨(tailer_counter_monotone String.toNat?).1 (some "1\n2") 1,
   (tailer_counter_monotone String.toNat?).2.1 (some "1\n2") 1 (by decide),
   (tailer_counter_monotone String.toNat?).2.2.1 7,
   (tailer_counter_monotone String.toNat?).2.2.2 "1" 5 (by decide)⟩

/-! ## Broadcast Hub: clients / broadcast (lines 1665-1682, 1770-1777)

WebSocket connections are identified by `Nat` ids.  A JavaScript `Set`
iterated in insertion order is a duplicate-free list with `add`
appending an unseen element and `delete` removing it.  A connection's
transient `readyState === 1` check is a predicate `ready` sampled at
the call. -/

/-- JS `Set.prototype.add`: append if not already present. -/
def setAdd (l : List Nat) (w : Nat) : List Nat :=
  if w ∈ l then l else l ++ [w]

/-- JS `Set.prototype.delete`: remove the element. -/
def setDel (l : List Nat) (w : Nat) : List Nat :=
  l.filter (fun x => x ≠ w)

/-- The module-level `clients` set (line 1665). -/
structure HubState where
  clients : List Nat
deriving DecidableEq, Repr

/-- `broadcast(message)` (lines 1770-1777): serialize the message once
(`ser message`) and send it to every client whose `readyState === 1`;
the client set itself is not modified.  Returns the unchanged hub state
and the list of performed sends `(client, data)` in iteration order. -/
def broadcast {M : Type} (ser : M → String) (h : HubState) (ready : Nat → Bool)
    (message : M) : HubState × List (Nat × String) :=
  let data := ser message
  (h, (h.clients.filter (fun c => ready c)).map (fun c => (c, data)))

/-- The close handler of a `/ws` connection (lines 1678-1681):
`clients.delete(ws)`. -/
def hubClose (h : HubState) (w : Nat) : HubState :=
  ⟨setDel h.clients w⟩

/-- The `/ws` connection handler (lines 1667-1682): add the connection
to `clients`, then run `gt status --json` and, only if it succeeded,
send this one connection a status message whose data is the parsed
output (null when unparsable).  Returns the new client list and the
list of status payloads sent to the new connection. -/
def wsConnect {J : Type} (parse : String → Option J) (h : HubState) (w : Nat)
    (res : GtResult) : HubState × List (Option J) :=
  (⟨setAdd h.clients w⟩,
   if res.success then [parseJsonOutput parse (res.output.getD "")] else [])

/-! ## Session Multiplexer: peekStreams and the peek handlers
(lines 1684-1767) -/

/-- Messages sent on a peek WebSocket, by their `type` discriminant:
`info {message:'Joined existing stream'}` (line 1697), `output` lines
(line 1712), `error` chunks (line 1721 / 1736), and
`info {message:'Process exited with code N'}` (line 1728). -/
inductive PeekMsg where
  | joined
  | output (line : String)
  | errorData (data : String)
  | exited (code : Int)
deriving DecidableEq, Repr

/-- One entry of `peekStreams`: the subprocess handle (identified by a
ghost id) and its subscriber set. -/
structure Stream where
  procId : Nat
  clients : List Nat
deriving DecidableEq, Repr

/-- The multiplexer state: the `peekStreams` map (line 1685) plus ghost
instrumentation — pending grace timers `(key, fireTime)` created by
`setTimeout`, a fresh-id counter for `spawn`, and logs of the spawns,
kills and per-connection sends performed so far. -/
structure MuxState where
  peekStreams : String → Option Stream
  timers : List (String × Nat)
  nextProc : Nat
  spawnLog : List (String × Nat)
  killLog : List Nat
  msgLog : List (Nat × PeekMsg)

/-- `Map.prototype.set` / `delete` on the `peekStreams` map. -/
def mapSet (m : String → Option Stream) (k : String) (v : Option Stream) :
    String → Option Stream :=
  fun q => if q = k then v else m q

/-- The `wssPeek` connection handler (lines 1687-1742) for key `k` and
connection `w`: if a stream exists, join it and send the connection the
'Joined existing stream' info message; otherwise spawn a `gt peek`
subprocess and register a fresh stream with this sole subscriber. -/
def attach (s : MuxState) (k : String) (w : Nat) : MuxState :=
  match s.peekStreams k with
  | some st =>
    { s with
      peekStreams := mapSet s.peekStreams k (some { st with clients := setAdd st.clients w }),
      msgLog := s.msgLog ++ [(w, PeekMsg.joined)] }
  | none =>
    { s with
      peekStreams := mapSet s.peekStreams k (some ⟨s.nextProc, [w]⟩),
      nextProc := s.nextProc + 1,
      spawnLog := s.spawnLog ++ [(k, s.nextProc)] }

/-- The peek `ws.on('close')` handler (lines 1744-1761) running at time
`now`: remove the connection from the key's stream, if any; if the
subscriber set became empty, schedule the grace-period timeout for
`now + 5000`. -/
def closeWs (s : MuxState) (k : String) (w : Nat) (now : Nat) : MuxState :=
  match s.peekStreams k with
  | none => s
  | some st =>
    let st2 : Stream := { st with clients := setDel st.clients w }
    let s2 : MuxState := { s with peekStreams := mapSet s.peekStreams k (some st2) }
    if st2.clients = [] then
      { s2 with timers := s2.timers ++ [(k, now + 5000)] }
    else s2

/-- The peek `ws.on('error')` handler (lines 1763-1766): remove the
connection from the key's stream, if any — nothing else. -/
def errorWs (s : MuxState) (k : String) (w : Nat) : MuxState :=
  match s.peekStreams k with
  | none => s
  | some st =>
    { s with
      peekStreams := mapSet s.peekStreams k (some { st with clients := setDel st.clients w }) }

/-- The body of the grace-period `setTimeout` callback (lines
1751-1758) for the timer `(k, t)`: the timer is no longer pending; if
the key still has a stream and its subscriber set is still empty, kill
the subprocess and delete the map entry. -/
def timerFire (s : MuxState) (k : String) (t : Nat) : MuxState :=
  let s1 : MuxState := { s with timers := s.timers.erase (k, t) }
  match s1.peekStreams k with
  | none => s1
  | some st =>
    if st.clients = [] then
      { s1 with
        peekStreams := mapSet s1.peekStreams k none,
        killLog := s1.killLog ++ [st.procId] }
    else s1

/-- Send `m` to every client of `cls` whose `readyState === 1`. -/
def sendAll (cls : List Nat) (ready : Nat → Bool) (m : PeekMsg) : List (Nat × PeekMsg) :=
  (cls.filter (fun c => ready c)).map (fun c => (c, m))

/-- The lines a stdout chunk is split into that actually get sent:
`data.toString().split('\n')`, keeping only lines with
`line.trim()` truthy (lines 1709-1711). -/
def stdoutLines (data : String) : List String :=
  ((jsSplit '\n' data.data).map String.mk).filter (fun l => ¬(jsTrim l.data = []))

/-- The `peekProcess.stdout.on('data')` handler (lines 1708-1718): for
each kept line, in order, send an output message to every ready
subscriber. -/
def stdoutHandler (data : String) (cls : List Nat) (ready : Nat → Bool) :
    List (Nat × PeekMsg) :=
  (stdoutLines data).flatMap (fun line => sendAll cls ready (PeekMsg.output line))

/-- The `peekProcess.stderr.on('data')` handler (lines 1720-1725): send
the whole chunk as one error message to every ready subscriber. -/
def stderrHandler (data : String) (cls : List Nat) (ready : Nat → Bool) :
    List (Nat × PeekMsg) :=
  sendAll cls ready (PeekMsg.errorData data)

/-- The `peekProcess.on('close')` handler (lines 1727-1733): send the
exit info message to every ready subscriber of the captured stream
(whose client set is `cls`) and delete the key's map entry. -/
def procClose (s : MuxState) (k : String) (code : Int) (cls : List Nat)
    (ready : Nat → Bool) : MuxState :=
  { s with
    peekStreams := mapSet s.peekStreams k none,
    msgLog := s.msgLog ++ sendAll cls ready (PeekMsg.exited code) }

/-- N connections attaching in sequence (the event loop serializes
them). -/
def attachAll (s : MuxState) (k : String) (ws : List Nat) : MuxState :=
  ws.foldl (fun s w => attach s k w) s

/-- How many subprocesses have ever been spawned for key `k`. -/
def countSpawns (k : String) (log : List (String × Nat)) : Nat :=
  (log.filter (fun p => p.1 = k)).length

/-! ### Multiplexer lemmas -/

lemma mapSet_self (m : String → Option Stream) (k : String) (v : Option Stream) :
    mapSet m k v k = v := by
  simp [mapSet]

lemma setAdd_mem (l : List Nat) (w : Nat) : w ∈ setAdd l w := by
  by_cases h : w ∈ l <;> simp [setAdd, h]

/-- An attach on a key that already has a stream only grows that
stream's subscriber set and logs the 'joined' message: no spawn, no
timer change, no kill. -/
lemma attach_existing (s : MuxState) (k : String) (w : Nat) (st : Stream)
    (h : s.peekStreams k = some st) :
    attach s k w = { s with
      peekStreams := mapSet s.peekStreams k (some ⟨st.procId, setAdd st.clients w⟩),
      msgLog := s.msgLog ++ [(w, PeekMsg.joined)] } := by
  simp [attach, h]

/-- Folding further attaches over an active key preserves the
subprocess and performs no spawn; each one logs its 'joined' message. -/
lemma attachAll_active (k : String) (pid : Nat) :
    ∀ (ws : List Nat) (s : MuxState) (cl : List Nat),
      s.peekStreams k = some ⟨pid, cl⟩ →
      ∃ cl2, (attachAll s k ws).peekStreams k = some ⟨pid, cl2⟩
        ∧ (attachAll s k ws).spawnLog = s.spawnLog
        ∧ (attachAll s k ws).nextProc = s.nextProc
        ∧ (attachAll s k ws).timers = s.timers
        ∧ (attachAll s k ws).killLog = s.killLog
        ∧ (attachAll s k ws).msgLog
            = s.msgLog ++ ws.map (fun w => (w, PeekMsg.joined))
  | [], s, cl, h => ⟨cl, h, rfl, rfl, rfl, rfl, by simp [attachAll]⟩
  | w :: ws, s, cl, h => by
    have hstep : attach s k w = { s with
        peekStreams := mapSet s.peekStreams k (some ⟨pid, setAdd cl w⟩),
        msgLog := s.msgLog ++ [(w, PeekMsg.joined)] } :=
      attach_existing s k w ⟨pid, cl⟩ h
    have h1 : (attach s k w).peekStreams k = some ⟨pid, setAdd cl w⟩ := by
      rw [hstep]; exact mapSet_self _ _ _
    rcases attachAll_active k pid ws (attach s k w) (setAdd cl w) h1 with
      ⟨cl2, h2, h3, h4, h5, h6, h7⟩
    have hall : attachAll s k (w :: ws) = attachAll (attach s k w) k ws := rfl
    refine ⟨cl2, by rw [hall]; exact h2, ?_, ?_, ?_, ?_, ?_⟩
    · rw [hall, h3, hstep]
    · rw [hall, h4, hstep]
    · rw [hall, h5, hstep]
    · rw [hall, h6, hstep]
    · rw [hall, h7, hstep]
      simp

/-- C2.  Multiplexer single-instance: starting from a state with no
stream for key `k`, any non-empty sequence of attaches spawns exactly
one subprocess for `k`; the stream keeps that first subprocess, every
attach after the first leaves the spawn log, fresh-process counter,
timers and kill log unchanged, only adds the connection to the
subscriber set, and sends that connection the 'joined existing stream'
message. -/
theorem mux_single_instance (k : String) (w0 : Nat) (ws : List Nat) (s0 : MuxState)
    (h0 : s0.peekStreams k = none) :
    countSpawns k (attachAll s0 k (w0 :: ws)).spawnLog = countSpawns k s0.spawnLog + 1
    ∧ (∃ cl, (attachAll s0 k (w0 :: ws)).peekStreams k = some ⟨s0.nextProc, cl⟩)
    ∧ (attachAll s0 k (w0 :: ws)).msgLog
        = s0.msgLog ++ ws.map (fun w => (w, PeekMsg.joined))
    ∧ (∀ (s : MuxState) (st : Stream) (w : Nat), s.peekStreams k = some st →
        (attach s k w).spawnLog = s.spawnLog
        ∧ (attach s k w).nextProc = s.nextProc
        ∧ (attach s k w).timers = s.timers
        ∧ (attach s k w).killLog = s.killLog
        ∧ (attach s k w).peekStreams k = some ⟨st.procId, setAdd st.clients w⟩
        ∧ (attach s k w).msgLog = s.msgLog ++ [(w, PeekMsg.joined)]) := by
  have hstep : attach s0 k w0 = { s0 with
      peekStreams := mapSet s0.peekStreams k (some ⟨s0.nextProc, [w0]⟩),
      nextProc := s0.nextProc + 1,
      spawnLog := s0.spawnLog ++ [(k, s0.nextProc)] } := by
    simp [attach, h0]
  have h1 : (attach s0 k w0).peekStreams k = some ⟨s0.nextProc, [w0]⟩ := by
    rw [hstep]; exact mapSet_self _ _ _
  rcases attachAll_active k s0.nextProc ws (attach s0 k w0) [w0] h1 with
    ⟨cl2, h2, h3, h4, h5, h6, h7⟩
  have hall : attachAll s0 k (w0 :: ws) = attachAll (attach s0 k w0) k ws := rfl
  refine ⟨?_, ⟨cl2, by rw [hall]; exact h2⟩, ?_, ?_⟩
  · rw [hall, h3, hstep]
    simp [countSpawns, List.filter_append]
  · rw [hall, h7, hstep]
  · intro s st w h
    have hs := attach_existing s k w st h
    refine ⟨by rw [hs], by rw [hs], by rw [hs], by rw [hs], ?_, by rw [hs]⟩
    rw [hs]; exact mapSet_self _ _ _

/-- C2 witness: two connections attach to a fresh key; exactly one
spawn happens and the second connection gets the 'joined' message. -/
theorem mux_single_instance_witness :
    countSpawns "rig/polecats/nux"
        (attachAll ⟨fun _ => none, [], 0, [], [], []⟩ "rig/polecats/nux" [1, 2]).spawnLog
      = countSpawns "rig/polecats/nux" ([] : List (String × Nat)) + 1
    ∧ (∃ cl, (attachAll ⟨fun _ => none, [], 0, [], [], []⟩ "rig/polecats/nux"
        [1, 2]).peekStreams "rig/polecats/nux" = some ⟨0, cl⟩)
    ∧ (attachAll ⟨fun _ => none, [], 0, [], [], []⟩ "rig/polecats/nux"
        [1, 2]).msgLog = [] ++ [2].map (fun w => (w, PeekMsg.joined)) := by
  have h := mux_single_instance "rig/polecats/nux" 1 [2]
      ⟨fun _ => none, [], 0, [], [], []⟩ rfl
  exact ⟨h.1, h.2.1, h.2.2.1⟩

/-- C3.  Multiplexer grace period.
(1)-(3): no handler other than the timer callback ever kills a
subprocess.  (4): a firing timer — including a stale one from an
earlier detach — kills the subprocess only if the key's subscriber set
is empty at that moment (and then removes the map entry).
(5): detaching the last subscriber at `t0` and re-attaching before the
timer fires leaves the original subprocess alive with the new
subscriber when the timer fires — no kill, no second spawn.
(6): detaching the last subscriber at `t0` with no attach before the
timer fires kills the subprocess and returns the key to Absent; the
close handler scheduled that timer for `t0 + 5000`. -/
theorem mux_grace_period :
    (∀ (s : MuxState) (k : String) (w : Nat), (attach s k w).killLog = s.killLog)
    ∧ (∀ (s : MuxState) (k : String) (w now : Nat),
        (closeWs s k w now).killLog = s.killLog)
    ∧ (∀ (s : MuxState) (k : String) (w : Nat), (errorWs s k w).killLog = s.killLog)
    ∧ (∀ (s : MuxState) (k : String) (t : Nat),
        (timerFire s k t).killLog ≠ s.killLog →
        ∃ st, s.peekStreams k = some st ∧ st.clients = []
          ∧ (timerFire s k t).killLog = s.killLog ++ [st.procId]
          ∧ (timerFire s k t).peekStreams k = none)
    ∧ (∀ (s : MuxState) (k : String) (pid w w2 t0 : Nat),
        s.peekStreams k = some ⟨pid, [w]⟩ →
        (timerFire (attach (closeWs s k w t0) k w2) k (t0 + 5000)).peekStreams k
            = some ⟨pid, [w2]⟩
        ∧ (timerFire (attach (closeWs s k w t0) k w2) k (t0 + 5000)).killLog = s.killLog
        ∧ (timerFire (attach (closeWs s k w t0) k w2) k (t0 + 5000)).spawnLog = s.spawnLog)
    ∧ (∀ (s : MuxState) (k : String) (pid w t0 : Nat),
        s.peekStreams k = some ⟨pid, [w]⟩ →
        (closeWs s k w t0).timers = s.timers ++ [(k, t0 + 5000)]
        ∧ (timerFire (closeWs s k w t0) k (t0 + 5000)).peekStreams k = none
        ∧ (timerFire (closeWs s k w t0) k (t0 + 5000)).killLog = s.killLog ++ [pid]) := by
  refine ⟨fun s k w => ?_, fun s k w now => ?_, fun s k w => ?_,
      fun s k t hne => ?_, fun s k pid w w2 t0 h => ?_, fun s k pid w t0 h => ?_⟩
  · cases hs : s.peekStreams k <;> simp [attach, hs]
  · cases hs : s.peekStreams k <;> simp [closeWs, hs]
    split <;> rfl
  · cases hs : s.peekStreams k <;> simp [errorWs, hs]
  · cases hs : s.peekStreams k with
    | none => exact absurd (by simp [timerFire, hs]) hne
    | some st =>
      by_cases hcl : st.clients = []
      · exact ⟨st, rfl, hcl, by simp [timerFire, hs, hcl], by simp [timerFire, hs, hcl, mapSet]⟩
      · exact absurd (by simp [timerFire, hs, hcl]) hne
  · have hclose : closeWs s k w t0 = { s with
        peekStreams := mapSet s.peekStreams k (some ⟨pid, []⟩),
        timers := s.timers ++ [(k, t0 + 5000)] } := by
      simp [closeWs, h, setDel]
    have hatt : attach (closeWs s k w t0) k w2 = { closeWs s k w t0 with
        peekStreams := mapSet (closeWs s k w t0).peekStreams k (some ⟨pid, [w2]⟩),
        msgLog := (closeWs s k w t0).msgLog ++ [(w2, PeekMsg.joined)] } := by
      have : (closeWs s k w t0).peekStreams k = some ⟨pid, []⟩ := by
        rw [hclose]; exact mapSet_self _ _ _
      simpa [setAdd] using attach_existing (closeWs s k w t0) k w2 ⟨pid, []⟩ this
    have hlook : (attach (closeWs s k w t0) k w2).peekStreams k = some ⟨pid, [w2]⟩ := by
      rw [hatt]; exact mapSet_self _ _ _
    have hk2 : (attach (closeWs s k w t0) k w2).killLog = s.killLog := by
      rw [hatt]
      show (closeWs s k w t0).killLog = s.killLog
      rw [hclose]
    have hs2 : (attach (closeWs s k w t0) k w2).spawnLog = s.spawnLog := by
      rw [hatt]
      show (closeWs s k w t0).spawnLog = s.spawnLog
      rw [hclose]
    refine ⟨by simp [timerFire, hlook], ?_, ?_⟩
    · simp only [timerFire, hlook]
      simpa using hk2
    · simp only [timerFire, hlook]
      simpa using hs2
  · have hclose : closeWs s k w t0 = { s with
        peekStreams := mapSet s.peekStreams k (some ⟨pid, []⟩),
        timers := s.timers ++ [(k, t0 + 5000)] } := by
      simp [closeWs, h, setDel]
    have hlook : (closeWs s k w t0).peekStreams k = some ⟨pid, []⟩ := by
      rw [hclose]; exact mapSet_self _ _ _
    refine ⟨by rw [hclose], by simp [timerFire, hlook, mapSet], ?_⟩
    simp only [timerFire, hlook]
    simp [hclose]

/-- C3 witness: one key, one subscriber; its detach plus a re-attach at
a later time survives the timer firing, while a detach with no
re-attach leads the timer to kill the subprocess. -/
theorem mux_grace_period_witness :
    ((timerFire (attach (closeWs
          ⟨fun _ => some ⟨4, [7]⟩, [], 5, [], [], []⟩ "nux" 7 100) "nux" 8)
        "nux" (100 + 5000)).peekStreams "nux" = some ⟨4, [8]⟩
      ∧ (timerFire (attach (closeWs
          ⟨fun _ => some ⟨4, [7]⟩, [], 5, [], [], []⟩ "nux" 7 100) "nux" 8)
        "nux" (100 + 5000)).killLog = []
      ∧ (timerFire (attach (closeWs
          ⟨fun _ => some ⟨4, [7]⟩, [], 5, [], [], []⟩ "nux" 7 100) "nux" 8)
        "nux" (100 + 5000)).spawnLog = [])
    ∧ ((closeWs ⟨fun _ => some ⟨4, [7]⟩, [], 5, [], [], []⟩ "nux" 7 100).timers
          = [] ++ [("nux", 100 + 5000)]
      ∧ (timerFire (closeWs ⟨fun _ => some ⟨4, [7]⟩, [], 5, [], [], []⟩ "nux" 7 100)
          "nux" (100 + 5000)).peekStreams "nux" = none
      ∧ (timerFire (closeWs ⟨fun _ => some ⟨4, [7]⟩, [], 5, [], [], []⟩ "nux" 7 100)
          "nux" (100 + 5000)).killLog = [] ++ [4]) :=
  ⟨mux_grace_period.2.2.2.2.1 ⟨fun _ => some ⟨4, [7]⟩, [], 5, [], [], []⟩
      "nux" 4 7 8 100 rfl,
   mux_grace_period.2.2.2.2.2 ⟨fun _ => some ⟨4, [7]⟩, [], 5, [], [], []⟩
      "nux" 4 7 100 rfl⟩

/-- C9.  Frame of the peek 'error' handler: it only removes the
connection from the key's subscriber set — the map entry stays (with
the same subprocess), other keys are untouched, and the timers, spawn
log, kill log, fresh-process counter and message log are unchanged;
in particular, even when the removal empties the subscriber set it
schedules no grace-period teardown, whereas the 'close' handler in the
same situation does schedule one for 5000 ms later. -/
theorem mux_error_handler_frame :
    (∀ (s : MuxState) (k : String) (w : Nat),
        (errorWs s k w).timers = s.timers
        ∧ (errorWs s k w).killLog = s.killLog
        ∧ (errorWs s k w).spawnLog = s.spawnLog
        ∧ (errorWs s k w).nextProc = s.nextProc
        ∧ (errorWs s k w).msgLog = s.msgLog)
    ∧ (∀ (s : MuxState) (k : String) (w : Nat) (st : Stream),
        s.peekStreams k = some st →
        (errorWs s k w).peekStreams k = some ⟨st.procId, setDel st.clients w⟩)
    ∧ (∀ (s : MuxState) (k : String) (w : Nat),
        s.peekStreams k = none → errorWs s k w = s)
    ∧ (∀ (s : MuxState) (k q : String) (w : Nat),
        q ≠ k → (errorWs s k w).peekStreams q = s.peekStreams q)
    ∧ (∀ (s : MuxState) (k : String) (w now : Nat) (st : Stream),
        s.peekStreams k = some st → setDel st.clients w = [] →
        (errorWs s k w).timers = s.timers
        ∧ (closeWs s k w now).timers = s.timers ++ [(k, now + 5000)]) := by
  refine ⟨fun s k w => ?_, fun s k w st h => ?_, fun s k w h => ?_,
      fun s k q w hq => ?_, fun s k w now st h hdel => ?_⟩
  · cases hs : s.peekStreams k <;> simp [errorWs, hs]
  · simp [errorWs, h, mapSet_self]
  · simp [errorWs, h]
  · cases hs : s.peekStreams k <;> simp [errorWs, hs, mapSet, hq]
  · refine ⟨?_, ?_⟩
    · simp [errorWs, h]
    · simp [closeWs, h, hdel]

/-- C9 witness: a state with a single subscriber whose error removal
empties the set — the error handler leaves the timers alone while the
close handler would schedule the teardown. -/
theorem mux_error_handler_frame_witness :
    ((errorWs ⟨fun _ => some ⟨4, [7]⟩, [], 5, [], [], []⟩ "nux" 7).timers = []
      ∧ (closeWs ⟨fun _ => some ⟨4, [7]⟩, [], 5, [], [], []⟩ "nux" 7 100).timers
          = [] ++ [("nux", 100 + 5000)])
    ∧ (errorWs ⟨fun _ => some ⟨4, [7]⟩, [], 5, [], [], []⟩ "nux" 7).peekStreams "nux"
        = some ⟨4, setDel [7] 7⟩ :=
  ⟨mux_error_handler_frame.2.2.2.2 ⟨fun _ => some ⟨4, [7]⟩, [], 5, [], [], []⟩
      "nux" 7 100 ⟨4, [7]⟩ rfl (by decide),
   mux_error_handler_frame.2.1 ⟨fun _ => some ⟨4, [7]⟩, [], 5, [], [], []⟩
      "nux" 7 ⟨4, [7]⟩ rfl⟩

/-- C10.  Detach totality: the peek 'close' handler on a key with no
stream (for example after the subprocess exited and its entry was
deleted) changes nothing — no kill, no timer, no error — and is
therefore idempotent there; in particular, right after the
subprocess-exit handler deletes the entry, a subscriber's close is such
a no-op. -/
theorem mux_detach_total :
    (∀ (s : MuxState) (k : String) (w now : Nat),
        s.peekStreams k = none →
        closeWs s k w now = s
        ∧ closeWs (closeWs s k w now) k w now = closeWs s k w now)
    ∧ (∀ (s : MuxState) (k : String) (code : Int) (cls : List Nat)
        (ready : Nat → Bool) (w now : Nat),
        (procClose s k code cls ready).peekStreams k = none
        ∧ closeWs (procClose s k code cls ready) k w now = procClose s k code cls ready) := by
  have hbase : ∀ (s : MuxState) (k : String) (w now : Nat),
      s.peekStreams k = none → closeWs s k w now = s := by
    intro s k w now h
    simp [closeWs, h]
  refine ⟨fun s k w now h => ⟨hbase s k w now h, ?_⟩,
      fun s k code cls ready w now => ?_⟩
  · rw [hbase s k w now h, hbase s k w now h]
  · have hnone : (procClose s k code cls ready).peekStreams k = none := by
      simp [procClose, mapSet_self]
    exact ⟨hnone, hbase _ k w now hnone⟩

/-- C10 witness: closing a connection for a key with no stream, both
directly and right after the subprocess-exit handler deleted the
entry. -/
theorem mux_detach_total_witness :
    (closeWs ⟨fun _ => none, [], 0, [], [], []⟩ "nux" 7 100
        = ⟨fun _ => none, [], 0, [], [], []⟩
      ∧ closeWs (closeWs ⟨fun _ => none, [], 0, [], [], []⟩ "nux" 7 100) "nux" 7 100
          = closeWs ⟨fun _ => none, [], 0, [], [], []⟩ "nux" 7 100)
    ∧ ((procClose ⟨fun _ => some ⟨4, [7]⟩, [], 5, [], [], []⟩ "nux" 0 [7]
          (fun _ => true)).peekStreams "nux" = none
      ∧ closeWs (procClose ⟨fun _ => some ⟨4, [7]⟩, [], 5, [], [], []⟩ "nux" 0 [7]
            (fun _ => true)) "nux" 7 100
          = procClose ⟨fun _ => some ⟨4, [7]⟩, [], 5, [], [], []⟩ "nux" 0 [7]
            (fun _ => true)) :=
  ⟨mux_detach_total.1 ⟨fun _ => none, [], 0, [], [], []⟩ "nux" 7 100 rfl,
   mux_detach_total.2 ⟨fun _ => some ⟨4, [7]⟩, [], 5, [], [], []⟩ "nux" 0 [7]
      (fun _ => true) 7 100⟩

/-! ### Fan-out delivery (C4) -/

/-- The sequence of messages a given connection receives from a send
log, in order. -/
def observedBy (w : Nat) (log : List (Nat × PeekMsg)) : List PeekMsg :=
  (log.filter (fun p => p.1 = w)).map Prod.snd

lemma observedBy_append (w : Nat) (l1 l2 : List (Nat × PeekMsg)) :
    observedBy w (l1 ++ l2) = observedBy w l1 ++ observedBy w l2 := by
  simp [observedBy, List.filter_append]

lemma observedBy_sendAll_of_not_mem (w : Nat) (ready : Nat → Bool) (m : PeekMsg) :
    ∀ cls : List Nat, w ∉ cls → observedBy w (sendAll cls ready m) = []
  | [], _ => rfl
  | c :: cs, h => by
    have hc : ¬(c = w) := fun e => h (by simp [e])
    have hcs : w ∉ cs := fun e => h (List.mem_cons_of_mem c e)
    have ih := observedBy_sendAll_of_not_mem w ready m cs hcs
    by_cases hr : ready c <;>
      simpa [sendAll, observedBy, List.filter_cons, hr, hc] using ih

lemma observedBy_sendAll_of_mem (w : Nat) (ready : Nat → Bool) (m : PeekMsg) :
    ∀ cls : List Nat, cls.Nodup → w ∈ cls → ready w = true →
      observedBy w (sendAll cls ready m) = [m]
  | [], _, hw, _ => absurd hw (List.not_mem_nil w)
  | c :: cs, hnd, hw, hr => by
    rcases List.mem_cons.mp hw with rfl | hw2
    · have hnotin : w ∉ cs := (List.nodup_cons.mp hnd).1
      have h0 := observedBy_sendAll_of_not_mem w ready m cs hnotin
      simpa [sendAll, observedBy, List.filter_cons, hr] using h0
    · have hc : ¬(c = w) := by
        rintro rfl
        exact (List.nodup_cons.mp hnd).1 hw2
      have ih := observedBy_sendAll_of_mem w ready m cs (List.nodup_cons.mp hnd).2 hw2 hr
      by_cases hrc : ready c <;>
        simpa [sendAll, observedBy, List.filter_cons, hrc, hc] using ih

lemma flatMap_singleton_eq_map (f : String → PeekMsg) :
    ∀ ls : List String, (ls.flatMap fun x => [f x]) = ls.map f
  | [] => rfl
  | x :: xs => by
    simp only [List.flatMap_cons, List.map_cons, List.singleton_append,
      flatMap_singleton_eq_map f xs]

lemma observedBy_flatMap (w : Nat) (f : String → List (Nat × PeekMsg)) :
    ∀ ls : List String,
      observedBy w (ls.flatMap f) = ls.flatMap (fun x => observedBy w (f x))
  | [] => rfl
  | x :: xs => by
    simp only [List.flatMap_cons, observedBy_append, observedBy_flatMap w f xs]

/-- C4 counterexample to the claim as stated: a stderr chunk holding
two lines is forwarded as ONE error message carrying the whole chunk,
not as one message per line; and a blank stdout line is not delivered
at all. -/
theorem mux_fanout_per_line_claim_false :
    stderrHandler "warn1\nwarn2" [0] (fun _ => true)
        = [(0, PeekMsg.errorData "warn1\nwarn2")]
    ∧ stderrHandler "warn1\nwarn2" [0] (fun _ => true)
        ≠ [(0, PeekMsg.errorData "warn1"), (0, PeekMsg.errorData "warn2")]
    ∧ stdoutHandler "x\n\ny" [0] (fun _ => true)
        = [(0, PeekMsg.output "x"), (0, PeekMsg.output "y")]
    ∧ stdoutHandler "x\n\ny" [0] (fun _ => true)
        ≠ [(0, PeekMsg.output "x"), (0, PeekMsg.output ""), (0, PeekMsg.output "y")] := by
  refine ⟨by decide, by decide, by decide, by decide⟩

/-- C4 (amended).  Fan-out line delivery: every subscriber of the key
that is in the open state observes, from one stdout chunk, exactly the
chunk's non-blank lines as individual output messages in the order
produced — so any two such subscribers observe the same lines in the
same relative order — and observes each stderr chunk as a single error
message carrying the whole chunk. -/
theorem mux_fanout_delivery (data : String) (cls : List Nat) (ready : Nat → Bool)
    (w : Nat) (hnd : cls.Nodup) (hw : w ∈ cls) (hr : ready w = true) :
    observedBy w (stdoutHandler data cls ready) = (stdoutLines data).map PeekMsg.output
    ∧ observedBy w (stderrHandler data cls ready) = [PeekMsg.errorData data] := by
  constructor
  · have hone : ∀ line, observedBy w (sendAll cls ready (PeekMsg.output line))
        = [PeekMsg.output line] :=
      fun line => observedBy_sendAll_of_mem w ready _ cls hnd hw hr
    rw [stdoutHandler, observedBy_flatMap]
    simp only [hone]
    exact flatMap_singleton_eq_map PeekMsg.output (stdoutLines data)
  · exact observedBy_sendAll_of_mem w ready _ cls hnd hw hr

/-- C4 witness: two open subscribers; the second one observes both
stdout lines in order and the stderr chunk once. -/
theorem mux_fanout_delivery_witness :
    observedBy 2 (stdoutHandler "hello\nworld" [1, 2] (fun _ => true))
        = (stdoutLines "hello\nworld").map PeekMsg.output
    ∧ observedBy 2 (stderrHandler "oops" [1, 2] (fun _ => true))
        = [PeekMsg.errorData "oops"] :=
  ⟨(mux_fanout_delivery "hello\nworld" [1, 2] (fun _ => true) 2
      (by decide) (by decide) rfl).1,
   (mux_fanout_delivery "oops" [1, 2] (fun _ => true) 2
      (by decide) (by decide) rfl).2⟩

/-! ### Broadcast isolation (C5) -/

/-- C5.  Broadcast isolation and membership: `broadcast` leaves the
client set unchanged; every member in the open state receives the one
serialized payload; a member not in the open state receives nothing (no
error, no retry — it is merely absent from the send list) and remains a
member; every delivered payload is the single serialization of the
message; and membership is removed only by the connection's own close
notification, which removes exactly that connection. -/
theorem hub_broadcast_isolation (M : Type) (ser : M → String) (h : HubState)
    (ready : Nat → Bool) (message : M) :
    (broadcast ser h ready message).1 = h
    ∧ (∀ w, w ∈ h.clients → ready w = true →
        (w, ser message) ∈ (broadcast ser h ready message).2)
    ∧ (∀ w, ready w = false → ∀ p ∈ (broadcast ser h ready message).2, p.1 ≠ w)
    ∧ (∀ p ∈ (broadcast ser h ready message).2, p.2 = ser message)
    ∧ (∀ w, (hubClose h w).clients = setDel h.clients w
        ∧ w ∉ (hubClose h w).clients
        ∧ ∀ v ∈ h.clients, v ≠ w → v ∈ (hubClose h w).clients) := by
  refine ⟨rfl, fun w hw hr => ?_, fun w hf p hp => ?_, fun p hp => ?_, fun w => ?_⟩
  · exact List.mem_map.mpr ⟨w, List.mem_filter.mpr ⟨hw, by simp [hr]⟩, rfl⟩
  · obtain ⟨c, hc, rfl⟩ := List.mem_map.mp hp
    have hrc : ready c = true := by simpa using (List.mem_filter.mp hc).2
    intro he
    rw [show ((c, ser message) : Nat × String).1 = c from rfl] at he
    rw [he, hf] at hrc
    exact Bool.false_ne_true hrc
  · obtain ⟨c, _, rfl⟩ := List.mem_map.mp hp
    rfl
  · refine ⟨rfl, ?_, fun v hv hne => ?_⟩
    · simp [hubClose, setDel]
    · simp only [hubClose, setDel]
      exact List.mem_filter.mpr ⟨hv, by simp [hne]⟩

/-- C5 witness: a hub with one open and one dead connection; the open
one receives the payload, the dead one receives nothing and is not
removed. -/
theorem hub_broadcast_isolation_witness :
    (1, "payload") ∈ (broadcast (fun s => s) ⟨[1, 2]⟩ (fun c => c == 1) "payload").2
    ∧ (∀ p ∈ (broadcast (fun s => s) ⟨[1, 2]⟩ (fun c => c == 1) "payload").2, p.1 ≠ 2)
    ∧ (broadcast (fun s => s) ⟨[1, 2]⟩ (fun c => c == 1) "payload").1 = ⟨[1, 2]⟩ :=
  ⟨(hub_broadcast_isolation String (fun s => s) ⟨[1, 2]⟩ (fun c => c == 1)
      "payload").2.1 1 (by decide) rfl,
   (hub_broadcast_isolation String (fun s => s) ⟨[1, 2]⟩ (fun c => c == 1)
      "payload").2.2.1 2 rfl,
   (hub_broadcast_isolation String (fun s => s) ⟨[1, 2]⟩ (fun c => c == 1)
      "payload").1⟩

/-! ### Process Runner result shape (C6) -/

/-- C6 counterexample to the claim as stated: a clean (status 0) exit
whose command also wrote to stderr yields `success=true` but a
NON-empty stderr field — the error fields are not all empty. -/
theorem runGt_clean_exit_stderr_nonempty :
    (runGt (ExecOutcome.ok "convoy listing" "warning: deprecated flag")).success = true
    ∧ (runGt (ExecOutcome.ok "convoy listing" "warning: deprecated flag")).stderr
        = some "warning: deprecated flag"
    ∧ (runGt (ExecOutcome.ok "convoy listing" "warning: deprecated flag")).stderr ≠ none
    ∧ (runGt (ExecOutcome.ok "convoy listing" "warning: deprecated flag")).stderr
        ≠ some "" := by
  refine ⟨rfl, rfl, by simp [runGt], by simp [runGt]⟩

/-- C6 (amended).  Process Runner result shape: the result is
success-shaped exactly for a clean (status 0) exit, and then `output`
is the captured stdout, the `error` message field is empty, and the
`stderr` field carries the captured stderr (possibly non-empty).  On
non-zero exit, spawn failure, or timeout the result has
`success=false`, no `output`, and a human-readable `error` message; a
timeout in particular is always failure-shaped. -/
theorem runGt_result_shape :
    (∀ x, (runGt x).success = true ↔ ∃ o e, x = ExecOutcome.ok o e)
    ∧ (∀ o e, runGt (ExecOutcome.ok o e) = ⟨true, some o, none, some e⟩)
    ∧ (∀ x, (runGt x).success = false →
        ∃ m, (runGt x).error = some m ∧ (runGt x).output = none)
    ∧ (∀ m e, (runGt (ExecOutcome.timeout m e)).success = false
        ∧ (runGt (ExecOutcome.timeout m e)).error = some m) := by
  refine ⟨fun x => ?_, fun o e => rfl, fun x hf => ?_, fun m e => ⟨rfl, rfl⟩⟩
  · cases x <;> simp [runGt]
  · cases x <;> simp_all [runGt]

/-- C6 witness: a spawn failure carries an error message and no output;
a timeout is failure-shaped with its message. -/
theorem runGt_result_shape_witness :
    (∃ m, (runGt (ExecOutcome.spawnFailure "spawn gt ENOENT")).error = some m
      ∧ (runGt (ExecOutcome.spawnFailure "spawn gt ENOENT")).output = none)
    ∧ ((runGt (ExecOutcome.timeout "Command timed out" "")).success = false
      ∧ (runGt (ExecOutcome.timeout "Command timed out" "")).error
          = some "Command timed out") :=
  ⟨runGt_result_shape.2.2.1 (ExecOutcome.spawnFailure "spawn gt ENOENT") rfl,
   runGt_result_shape.2.2.2 "Command timed out" ""⟩

/-! ### Initial snapshot on subscribe (C7) -/

/-- C7 counterexample to the claim as stated: when the initial
`gt status --json` invocation fails (here: a timeout) the newly
subscribed connection is sent NO status snapshot at all, although it
has joined the client set. -/
theorem hub_snapshot_claim_false :
    (wsConnect String.toNat? ⟨[]⟩ 5 (runGt (ExecOutcome.timeout "timed out" ""))).2 = []
    ∧ 5 ∈ (wsConnect String.toNat? ⟨[]⟩ 5
        (runGt (ExecOutcome.timeout "timed out" ""))).1.clients := by
  exact ⟨rfl, by decide⟩

/-- C7 (amended).  Initial snapshot on subscribe: a new `/ws`
connection always joins the client set, and it is immediately sent
exactly one status snapshot if and only if the initial status
invocation succeeds (the snapshot's data being the parsed output, null
when unparsable); when the invocation fails nothing is sent to it until
the next periodic tick. -/
theorem hub_initial_snapshot (J : Type) (parse : String → Option J) (h : HubState)
    (w : Nat) (res : GtResult) :
    (wsConnect parse h w res).1.clients = setAdd h.clients w
    ∧ w ∈ (wsConnect parse h w res).1.clients
    ∧ (res.success = true →
        (wsConnect parse h w res).2 = [parseJsonOutput parse (res.output.getD "")])
    ∧ (res.success = false → (wsConnect parse h w res).2 = []) := by
  refine ⟨rfl, setAdd_mem h.clients w, fun hs => ?_, fun hs => ?_⟩ <;>
    simp [wsConnect, hs]

/-- C7 witness: a successful status invocation leads to exactly one
status snapshot being sent to the new connection. -/
theorem hub_initial_snapshot_witness :
    (wsConnect String.toNat? ⟨[1]⟩ 2 (runGt (ExecOutcome.ok " 42 " ""))).2
        = [parseJsonOutput String.toNat?
            ((runGt (ExecOutcome.ok " 42 " "")).output.getD "")]
    ∧ 2 ∈ (wsConnect String.toNat? ⟨[1]⟩ 2 (runGt (ExecOutcome.ok " 42 " ""))).1.clients :=
  ⟨(hub_initial_snapshot Nat String.toNat? ⟨[1]⟩ 2
      (runGt (ExecOutcome.ok " 42 " ""))).2.2.1 rfl,
   (hub_initial_snapshot Nat String.toNat? ⟨[1]⟩ 2
      (runGt (ExecOutcome.ok " 42 " ""))).2.1⟩

end Gastown
